import Mathlib

/-!
Verification of the chatter chat-session synchronization core.

The definitions below are a shallow embedding of the TypeScript source:
the default event normalizer and the WebSocket transport
(packages/core transport implementation), the in-memory message store
(packages/core/src/state/message-store.ts), the streaming state machine
(packages/core/src/state/streaming-state.ts) and the timeline builder
(packages/core/src/state/timeline-builder.ts).

JavaScript dynamic values are modelled by the inductive type `JValue`
(JSON values plus an explicit `undefined` for the JS undefined value that
property lookups can produce); JS truthiness, string coercion, property
access, nullish coalescing and the or-fallback operator are each given an
explicit executable model.
-/

mutual

/-- A JavaScript runtime value as it appears in this code base: JSON data
plus the distinguished undefined value produced by missing-property
lookups.  Arrays and objects carry their own list types (`JList`,
`JPairs`) so every recursion over values is structural.  Numbers are
restricted to integers, which covers every numeric value the specified
behaviour depends on (sequence numbers, priorities, delays). -/
inductive JValue where
  | undefined : JValue
  | null : JValue
  | bool : Bool → JValue
  | num : Int → JValue
  | str : String → JValue
  | arr : JList → JValue
  | obj : JPairs → JValue

/-- The element list of a JS array value. -/
inductive JList where
  | nil : JList
  | cons : JValue → JList → JList

/-- The ordered own-property list of a JS object value (keys unique). -/
inductive JPairs where
  | nil : JPairs
  | cons : String → JValue → JPairs → JPairs

end

/-- Build a `JList` from a Lean list (for writing array literals). -/
def listToJList : List JValue → JList
  | [] => .nil
  | x :: rest => .cons x (listToJList rest)

/-- Build a `JPairs` from a Lean list (for writing object literals). -/
def listToJPairs : List (String × JValue) → JPairs
  | [] => .nil
  | (k, v) :: rest => .cons k v (listToJPairs rest)

/-- Array literal helper. -/
def arrOf (l : List JValue) : JValue := .arr (listToJList l)

/-- Object literal helper. -/
def objOf (l : List (String × JValue)) : JValue := .obj (listToJPairs l)

/-- JS truthiness of a value (undefined, null, false, 0 and the
empty string are falsy; every array and object is truthy). -/
def jsTruthy : JValue → Bool
  | .undefined => false
  | .null => false
  | .bool b => b
  | .num n => n != 0
  | .str s => s != ""
  | .arr _ => true
  | .obj _ => true

/-- Whether `typeof v` is the string "object" (true for null, arrays and
plain objects). -/
def jsTypeofObject : JValue → Bool
  | .null => true
  | .arr _ => true
  | .obj _ => true
  | _ => false

/-- Whether a value is nullish, i.e. `v == null` in JS (null or undefined). -/
def jsNullish : JValue → Bool
  | .undefined => true
  | .null => true
  | _ => false

mutual

/-- The JS `String(v)` coercion. -/
def jsToString : JValue → String
  | .undefined => "undefined"
  | .null => "null"
  | .bool true => "true"
  | .bool false => "false"
  | .num n => toString n
  | .str s => s
  | .arr l => jsArrToString l
  | .obj _ => "[object Object]"

/-- `Array.prototype.toString`: elements joined by commas, nullish
elements contributing the empty string. -/
def jsArrToString : JList → String
  | .nil => ""
  | .cons x rest =>
    (match x with
     | .undefined => ""
     | .null => ""
     | v => jsToString v) ++
    (match rest with
     | .nil => ""
     | .cons y r2 => "," ++ jsArrToString (.cons y r2))

end

/-- JS object own-property lookup (first binding of the key; keys in a
well-formed object are unique). -/
def assocFind : JPairs → String → Option JValue
  | .nil, _ => none
  | .cons k1 v1 rest, k => if k1 = k then some v1 else assocFind rest k

/-- The effect of the JS object spread on a property list: assigning a
key overwrites in place when present (keeping its position) and appends
otherwise. -/
def jsPairsSet : JPairs → String → JValue → JPairs
  | .nil, k, v => .cons k v .nil
  | .cons k1 v1 rest, k, v =>
    if k1 = k then .cons k v rest else .cons k1 v1 (jsPairsSet rest k v)

/-- Digit-string parse, structurally over characters (the JS conversion
of a property string to an array index). -/
def charsToNatAux : List Char → Nat → Option Nat
  | [], acc => some acc
  | c :: rest, acc =>
    if '0' ≤ c ∧ c ≤ '9' then charsToNatAux rest (acc * 10 + (c.toNat - 48))
    else none

/-- Parse a nonempty all-digit string as a natural number. -/
def strToNat? (s : String) : Option Nat :=
  match s.data with
  | [] => none
  | l => charsToNatAux l 0

/-- Array element at an index. -/
def jsArrGet : JList → Nat → Option JValue
  | .nil, _ => none
  | .cons x _, 0 => some x
  | .cons _ rest, n + 1 => jsArrGet rest n

/-- Array length. -/
def jsArrLength : JList → Nat
  | .nil => 0
  | .cons _ rest => jsArrLength rest + 1

/-- Single-step JS property access `v[p]` for the value kinds that can
carry properties here; anything else yields undefined.  Arrays expose
their elements under numeric-string keys and a length property. -/
def jsProp (v : JValue) (p : String) : JValue :=
  match v with
  | .obj kvs => (assocFind kvs p).getD .undefined
  | .arr l =>
    match strToNat? p with
    | some i => (jsArrGet l i).getD .undefined
    | none => if p = "length" then .num (jsArrLength l) else .undefined
  | _ => .undefined

/-- The JS or-fallback `a || b`: `a` when truthy, otherwise `b`. -/
def jsOrElse (a b : JValue) : JValue :=
  if jsTruthy a then a else b

/-- The JS nullish coalescing `a ?? b`: `b` when `a` is null or
undefined, otherwise `a`. -/
def jsCoalesce (a b : JValue) : JValue :=
  if jsNullish a then b else a

/-- The canonical event record produced by a normalizer
(NormalizedEvent in the source's transport types). -/
structure NormalizedEvent where
  type : String
  sessionId : String
  payload : JValue
  sequence : Option Int
  timestamp : String
  raw : JValue

/-- The event record DefaultNormalizer.normalize returns for an input
that passed its guard (the object literal in the source's return
statement).  `now` stands for the string `new Date().toISOString()`
evaluates to at the call. -/
def DefaultNormalizer.normalizeBody (now : String) (event : JValue) : NormalizedEvent :=
  { type := jsToString (jsOrElse (jsProp event "type") (.str "message"))
    sessionId := jsToString (jsOrElse (jsOrElse (jsProp event "sessionId")
      (jsProp event "session_id")) (.str ""))
    payload := jsCoalesce (jsCoalesce (jsProp event "payload")
      (jsProp event "data")) event
    sequence :=
      match jsProp event "sequence" with
      | .num n => some n
      | _ => none
    timestamp := jsToString (jsOrElse (jsOrElse (jsProp event "timestamp")
      (jsProp event "createdAt")) (.str now))
    raw := event }

/-- DefaultNormalizer.normalize from the transport source: null for
falsy or non-object input, the normalized record otherwise. -/
def DefaultNormalizer.normalize (now : String) (rawEvent : JValue) : Option NormalizedEvent :=
  if !(jsTruthy rawEvent) || !(jsTypeofObject rawEvent) then
    none
  else
    some (DefaultNormalizer.normalizeBody now rawEvent)

/-- Whether a JS value is an object in the sense that lets it pass the
normalizer's guard (truthy and of object type: arrays and plain objects;
null is falsy and everything else is not of object type). -/
def isObjLike : JValue → Bool
  | .arr _ => true
  | .obj _ => true
  | _ => false

/-! ### Insertion-ordered string-keyed map (the semantics of a JS Map) -/

/-- JS `Map.prototype.set`: overwrite in place when the key is present
(iteration order keeps the key's original position), append otherwise. -/
def mapSet {β : Type} (m : List (String × β)) (k : String) (v : β) :
    List (String × β) :=
  match m with
  | [] => [(k, v)]
  | (k1, v1) :: rest => if k1 = k then (k, v) :: rest else (k1, v1) :: mapSet rest k v

/-- JS `Map.prototype.get` (`none` plays the role of undefined). -/
def mapLookup {β : Type} (m : List (String × β)) (k : String) : Option β :=
  match m with
  | [] => none
  | (k1, v1) :: rest => if k1 = k then some v1 else mapLookup rest k

/-- JS `Map.prototype.delete` (keys are unique, so removing the first
occurrence removes the entry). -/
def mapDelete {β : Type} (m : List (String × β)) (k : String) : List (String × β) :=
  match m with
  | [] => []
  | (k1, v1) :: rest => if k1 = k then rest else (k1, v1) :: mapDelete rest k

/-- Keys in iteration order. -/
def mapKeys {β : Type} (m : List (String × β)) : List String := m.map (·.1)

/-- JS `Map.prototype.values` as a list, in iteration order. -/
def mapValues {β : Type} (m : List (String × β)) : List β := m.map (·.2)

/-! ### In-memory message store (message-store.ts) -/

/-- A stored chat message: the concrete instantiation of the source's
BaseMessage interface used throughout (content as plain text). -/
structure StoreMessage where
  id : String
  sender : String
  content : String
  createdAt : String
  sequence : Option Int
deriving DecidableEq

/-- The private `messages` Map of InMemoryMessageStore. -/
abbrev MessageMap := List (String × StoreMessage)

/-- InMemoryMessageStore.getMessages: `Array.from(this.messages.values())`. -/
def getMessages (st : MessageMap) : List StoreMessage := mapValues st

/-- InMemoryMessageStore.addMessage.  The second component is the list of
listener broadcasts the call performs (notifyListeners sends the full
current snapshot once to every subscribed listener). -/
def addMessage (message : StoreMessage) (st : MessageMap) :
    MessageMap × List (List StoreMessage) :=
  let st2 := mapSet st message.id message
  (st2, [getMessages st2])

/-- InMemoryMessageStore.addMessages: one `set` per message, then a single
notifyListeners call for the whole batch. -/
def addMessages (messages : List StoreMessage) (st : MessageMap) :
    MessageMap × List (List StoreMessage) :=
  let st2 := messages.foldl (fun s m => mapSet s m.id m) st
  (st2, [getMessages st2])

/-! ### Streaming state machine (streaming-state.ts) -/

/-- A content block of a rich message (message types source). -/
structure ContentBlock where
  type : String
  content : Option String
  language : Option String
  url : Option String
  alt : Option String
deriving DecidableEq

/-- contentBlocksEqual from streaming-state.ts: both null, or same length
with the type and content fields equal pointwise (other block fields are
not compared). -/
def contentBlocksEqual : Option (List ContentBlock) → Option (List ContentBlock) → Bool
  | none, none => true
  | none, some _ => false
  | some _, none => false
  | some a, some b =>
    a.length == b.length &&
      (List.zip a b).all (fun p => p.1.type == p.2.type && p.1.content == p.2.content)

/-- StreamingState from the state types source. -/
structure StreamingState where
  isStreaming : Bool
  partialContent : Option (List ContentBlock)
  sessionId : Option String
deriving DecidableEq

/-- INITIAL_STATE from streaming-state.ts. -/
def INITIAL_STATE : StreamingState :=
  { isStreaming := false, partialContent := none, sessionId := none }

/-- DefaultStreamingStateMachine.setState: the snapshot comparison that
gates listener notification also gates the state write, so the state is
replaced only when isStreaming, sessionId or the compared block fields
changed. -/
def setStreamingState (st newState : StreamingState) : StreamingState :=
  let hasChanged := st.isStreaming != newState.isStreaming
    || st.sessionId != newState.sessionId
    || !(contentBlocksEqual st.partialContent newState.partialContent)
  if hasChanged then newState else st

/-- DefaultStreamingStateMachine.onPartialContent. -/
def onPartialContent (sessionId : String) (content : List ContentBlock)
    (st : StreamingState) : StreamingState :=
  setStreamingState st
    { isStreaming := true, partialContent := some content, sessionId := some sessionId }

/-- DefaultStreamingStateMachine.onComplete: clear only when the given id
matches the tracked session or no session is tracked. -/
def onComplete (sessionId : String) (st : StreamingState) : StreamingState :=
  if st.sessionId = some sessionId ∨ st.sessionId = none then
    setStreamingState st INITIAL_STATE
  else st

/-! ### Timeline builder (timeline-builder.ts) -/

/-- Sort direction of a SortingRule. -/
inductive SortDirection where
  | asc : SortDirection
  | desc : SortDirection
deriving DecidableEq

/-- SortingRule from the state types source. -/
structure SortingRule where
  field : String
  direction : SortDirection
  priority : Int
deriving DecidableEq

/-- Deduplication strategy of a DeduplicationRule. -/
inductive DedupStrategy where
  | first : DedupStrategy
  | last : DedupStrategy
deriving DecidableEq

/-- DeduplicationRule from the state types source. -/
structure DeduplicationRule where
  field : String
  strategy : DedupStrategy
deriving DecidableEq

/-- The JS single-character split `s.split(".")` of a field path,
structurally over the characters. -/
def splitDotAux : List Char → List (List Char)
  | [] => [[]]
  | c :: rest =>
    match splitDotAux rest with
    | [] => [[]]
    | g :: gs => if c = '.' then [] :: g :: gs else (c :: g) :: gs

/-- `field.split(".")`. -/
def splitOnDot (s : String) : List String :=
  (splitDotAux s.data).map (fun g => String.mk g)

/-- The loop of getFieldValue: before each property access the current
value must be non-nullish and of object type, otherwise the result is
undefined; the final value is returned unchecked. -/
def getFieldValueLoop : List String → JValue → JValue
  | [], v => v
  | p :: ps, v =>
    if jsNullish v || !(jsTypeofObject v) then .undefined
    else getFieldValueLoop ps (jsProp v p)

/-- getFieldValue from timeline-builder.ts: resolve a dot-separated field
path on a dynamic value. -/
def getFieldValue (o : JValue) (field : String) : JValue :=
  getFieldValueLoop (splitOnDot field) o

/-- A locale-sensitive string comparison, standing for
`String.prototype.localeCompare` under the ambient locale. -/
abbrev LocaleCompare := String → String → Int

/-- Negate the comparison for a descending rule
(`rule.direction === 'desc' ? -comparison : comparison`). -/
def applyDirection (d : SortDirection) (c : Int) : Int :=
  match d with
  | .desc => -c
  | .asc => c

/-- The rule loop of the comparator returned by createCompareFunction:
nullish values on both sides fall through to the next rule, a nullish
value on one side sorts that side last immediately (no direction
adjustment), numbers compare by subtraction, strings by localeCompare,
anything else by localeCompare of the String coercions; the first nonzero
comparison is returned with the rule's direction applied. -/
def compareLoop (lc : LocaleCompare) : List SortingRule → JValue → JValue → Int
  | [], _, _ => 0
  | rule :: rest, a, b =>
    let aVal := getFieldValue a rule.field
    let bVal := getFieldValue b rule.field
    if jsNullish aVal && jsNullish bVal then compareLoop lc rest a b
    else if jsNullish aVal then 1
    else if jsNullish bVal then -1
    else
      let comparison :=
        match aVal, bVal with
        | .num x, .num y => x - y
        | .str x, .str y => lc x y
        | x, y => lc (jsToString x) (jsToString y)
      if comparison != 0 then applyDirection rule.direction comparison
      else compareLoop lc rest a b

/-- A stable sort by a JS comparator (modern `Array.prototype.sort` is
specified stable; elements compare-before when the comparator is
negative, ties keep their original relative order). -/
def jsSortBy {α : Type} (cmp : α → α → Int) (l : List α) : List α :=
  @List.insertionSort α (fun a b => cmp a b ≤ 0) (fun x y => Int.decLe (cmp x y) 0) l

/-- `[...rules].sort((a, b) => a.priority - b.priority)` from
createCompareFunction. -/
def sortRulesByPriority (rules : List SortingRule) : List SortingRule :=
  jsSortBy (fun a b => a.priority - b.priority) rules

/-- createCompareFunction from timeline-builder.ts. -/
def createCompareFunction (lc : LocaleCompare) (rules : List SortingRule) :
    JValue → JValue → Int :=
  compareLoop lc (sortRulesByPriority rules)

/-- The key an item is stored under while deduplicating:
`String(getFieldValue(item, rule.field))`. -/
def dedupKey (rule : DeduplicationRule) (item : JValue) : String :=
  jsToString (getFieldValue item rule.field)

/-- One item's pass over all rules inside deduplicateItems. -/
def dedupStep (rules : List DeduplicationRule) (seen : List (String × JValue))
    (item : JValue) : List (String × JValue) :=
  rules.foldl
    (fun acc rule =>
      match rule.strategy with
      | .first =>
        if (mapLookup acc (dedupKey rule item)).isSome then acc
        else mapSet acc (dedupKey rule item) item
      | .last => mapSet acc (dedupKey rule item) item)
    seen

/-- deduplicateItems from timeline-builder.ts: a shared `seen` Map filled
item by item, returned in insertion order. -/
def deduplicateItems (items : List JValue) (rules : List DeduplicationRule) :
    List JValue :=
  mapValues (items.foldl (dedupStep rules) [])

/-- DEFAULT_SORTING_RULES from timeline-builder.ts. -/
def DEFAULT_SORTING_RULES : List SortingRule :=
  [{ field := "sequence", direction := .asc, priority := 1 },
   { field := "createdAt", direction := .asc, priority := 2 },
   { field := "id", direction := .asc, priority := 3 }]

/-- DEFAULT_DEDUP_RULES from timeline-builder.ts. -/
def DEFAULT_DEDUP_RULES : List DeduplicationRule :=
  [{ field := "id", strategy := .last }]

/-- The spread `(spread msg, itemType: tag)` that tags a message or event
as a timeline item.  Inputs are message/event objects; tagging keeps an
existing itemType key in place and appends the key otherwise, as the JS
object spread does. -/
def tagItemType (tag : String) (v : JValue) : JValue :=
  match v with
  | .obj kvs => .obj (jsPairsSet kvs "itemType" (.str tag))
  | _ => objOf [("itemType", .str tag)]

/-- TimelineBuildParams (the fields build consumes; optional fields are
absent when undefined). -/
structure TimelineBuildParams where
  messages : List JValue
  events : Option (List JValue)
  deduplicationRules : Option (List DeduplicationRule)
  sortingRules : Option (List SortingRule)

/-- DefaultTimelineBuilder.build: tag, concatenate, deduplicate, sort. -/
def build (lc : LocaleCompare) (params : TimelineBuildParams) : List JValue :=
  let events := params.events.getD []
  let deduplicationRules := params.deduplicationRules.getD DEFAULT_DEDUP_RULES
  let sortingRules := params.sortingRules.getD DEFAULT_SORTING_RULES
  let messageItems := params.messages.map (tagItemType "message")
  let eventItems := events.map (tagItemType "event")
  let allItems := messageItems ++ eventItems
  let dedupedItems := deduplicateItems allItems deduplicationRules
  jsSortBy (createCompareFunction lc sortingRules) dedupedItems

/-! ### WebSocket transport (transport source) -/

/-- ConnectionStatus from the transport types source. -/
inductive ConnectionStatus where
  | disconnected : ConnectionStatus
  | connecting : ConnectionStatus
  | connected : ConnectionStatus
  | reconnecting : ConnectionStatus
  | error : ConnectionStatus
deriving DecidableEq

/-- The optional reconnect block of WebSocketTransportConfig. -/
structure ReconnectOptions where
  enabled : Option Bool
  maxAttempts : Option Nat
  baseDelay : Option Nat
  maxDelay : Option Nat

/-- WebSocketTransportConfig as the caller supplies it (optional fields
absent when undefined; the normalizer field is not modelled here). -/
structure WebSocketTransportConfig where
  url : String
  heartbeatInterval : Option Nat
  authToken : Option String
  reconnect : Option ReconnectOptions

/-- The resolved `this.config` of WebSocketTransport. -/
structure ResolvedTransportConfig where
  url : String
  heartbeatInterval : Nat
  authToken : Option String
  enabled : Bool
  maxAttempts : Nat
  baseDelay : Nat
  maxDelay : Nat
deriving DecidableEq

/-- The WebSocketTransport constructor's config defaulting
(optional chaining plus nullish-coalescing defaults). -/
def resolveConfig (config : WebSocketTransportConfig) : ResolvedTransportConfig :=
  { url := config.url
    heartbeatInterval := config.heartbeatInterval.getD 30000
    authToken := config.authToken
    enabled := (config.reconnect.bind (·.enabled)).getD true
    maxAttempts := (config.reconnect.bind (·.maxAttempts)).getD 10
    baseDelay := (config.reconnect.bind (·.baseDelay)).getD 1000
    maxDelay := (config.reconnect.bind (·.maxDelay)).getD 30000 }

/-- The connection-lifecycle state of a WebSocketTransport instance.
`socketGen` counts the WebSocket objects created so far, `heartbeatOn`
whether the heartbeat interval timer is running, `pendingReconnectDelay`
the delay of the armed reconnect timer if any, and `statusEvents` the
log of status values delivered to status listeners so far. -/
structure TransportState where
  status : ConnectionStatus
  reconnectAttempts : Nat
  socketGen : Nat
  heartbeatOn : Bool
  pendingReconnectDelay : Option Nat
  statusEvents : List ConnectionStatus
deriving DecidableEq

/-- WebSocketTransport.setStatus: write and notify only on change. -/
def setStatus (st : TransportState) (s : ConnectionStatus) : TransportState :=
  if st.status = s then st
  else { st with status := s, statusEvents := st.statusEvents ++ [s] }

/-- The synchronous effect of WebSocketTransport.connect(): a no-op while
connected or connecting, otherwise move to connecting and create a new
WebSocket. -/
def connectCall (st : TransportState) : TransportState :=
  if st.status = .connected ∨ st.status = .connecting then st
  else
    let st1 := setStatus st .connecting
    { st1 with socketGen := st1.socketGen + 1 }

/-- The ws.onopen handler: reset the attempt counter, move to connected,
start the heartbeat. -/
def handleOpen (st : TransportState) : TransportState :=
  let st1 := { st with reconnectAttempts := 0 }
  let st2 := setStatus st1 .connected
  { st2 with heartbeatOn := true }

/-- WebSocketTransport.scheduleReconnect: clear any armed timer and arm
one whose delay uses the attempt count as it stands now. -/
def scheduleReconnect (cfg : ResolvedTransportConfig) (st : TransportState) :
    TransportState :=
  { st with
    pendingReconnectDelay := some (min (cfg.baseDelay * 2 ^ st.reconnectAttempts) cfg.maxDelay) }

/-- WebSocketTransport.handleDisconnect. -/
def handleDisconnect (cfg : ResolvedTransportConfig) (st : TransportState) :
    TransportState :=
  if !cfg.enabled then setStatus st .disconnected
  else if cfg.maxAttempts ≤ st.reconnectAttempts then setStatus st .error
  else scheduleReconnect cfg (setStatus st .reconnecting)

/-- The reconnect timer's callback: increment the attempt counter, then
call connect(). -/
def reconnectTimerFire (st : TransportState) : TransportState :=
  connectCall
    { st with pendingReconnectDelay := none,
              reconnectAttempts := st.reconnectAttempts + 1 }

/-- Control frames the transport writes for session fan-out. -/
inductive ControlFrame where
  | subscribeSession (sessionId : String) : ControlFrame
  | unsubscribeSession (sessionId : String) : ControlFrame
deriving DecidableEq

/-- The subscription-registry state of a transport: the per-session
subscriber Map (callbacks identified by number, each session holding a JS
Set of them) and whether the socket is open (sendRaw writes only then). -/
structure SubscriberState where
  sessionSubscribers : List (String × List Nat)
  wsOpen : Bool
deriving DecidableEq

/-- WebSocketTransport.sendRaw: the frames actually written (one when the
socket is open, none otherwise). -/
def sendRaw (st : SubscriberState) (f : ControlFrame) : List ControlFrame :=
  if st.wsOpen then [f] else []

/-- JS `Set.prototype.add`: insertion-ordered, ignoring duplicates. -/
def setAdd (l : List Nat) (x : Nat) : List Nat :=
  if x ∈ l then l else l ++ [x]

/-- WebSocketTransport.subscribe(sessionId, callback): on the first
callback for a session, create its subscriber set and send a subscribe
control frame; then add the callback.  Returns the new state and the
frames written. -/
def subscribeOp (sessionId : String) (cb : Nat) (st : SubscriberState) :
    SubscriberState × List ControlFrame :=
  match mapLookup st.sessionSubscribers sessionId with
  | none =>
    let m1 := mapSet st.sessionSubscribers sessionId []
    let frames := sendRaw st (.subscribeSession sessionId)
    ({ st with sessionSubscribers := mapSet m1 sessionId (setAdd [] cb) }, frames)
  | some subs =>
    ({ st with
        sessionSubscribers := mapSet st.sessionSubscribers sessionId (setAdd subs cb) }, [])

/-- The unsubscribe closure returned by subscribe: remove the callback
from the session's set; when the set empties, drop the session entry and
send an unsubscribe control frame. -/
def unsubscribeOp (sessionId : String) (cb : Nat) (st : SubscriberState) :
    SubscriberState × List ControlFrame :=
  match mapLookup st.sessionSubscribers sessionId with
  | none => (st, [])
  | some subs =>
    let subs2 := subs.erase cb
    if subs2.length = 0 then
      ({ st with sessionSubscribers := mapDelete st.sessionSubscribers sessionId },
        sendRaw st (.unsubscribeSession sessionId))
    else
      ({ st with
          sessionSubscribers := mapSet st.sessionSubscribers sessionId subs2 }, [])

/-- A concrete state in which the retry budget is exhausted: maxAttempts
(10 by default) failed reconnect attempts have been made and the
transport has moved to the terminal error status. -/
def exhaustedState : TransportState :=
  { status := .error, reconnectAttempts := 10, socketGen := 1, heartbeatOn := false,
    pendingReconnectDelay := none, statusEvents := [] }

/-- Example message with sequence 3 (spec example for build). -/
def exampleMsgSeq3 : JValue := objOf [("id", .str "m1"), ("sequence", .num 3)]

/-- Example message with sequence 1 (spec example for build). -/
def exampleMsgSeq1 : JValue := objOf [("id", .str "m2"), ("sequence", .num 1)]

/-- Example message with sequence 2 (spec example for build). -/
def exampleMsgSeq2 : JValue := objOf [("id", .str "m3"), ("sequence", .num 2)]

/-- The spec's example build call: three messages with sequences 3, 1, 2
and a single ascending sequence sorting rule. -/
def exampleSortParams : TimelineBuildParams :=
  { messages := [exampleMsgSeq3, exampleMsgSeq1, exampleMsgSeq2]
    events := none
    deduplicationRules := none
    sortingRules := some [{ field := "sequence", direction := .asc, priority := 1 }] }

/-! ## Helper lemmas about the insertion-ordered map -/

theorem mapLookup_mapSet_self {β : Type} (m : List (String × β)) (k : String) (v : β) :
    mapLookup (mapSet m k v) k = some v := by
  induction m with
  | nil => simp [mapSet, mapLookup]
  | cons p rest ih =>
    obtain ⟨k1, v1⟩ := p
    by_cases h : k1 = k <;> simp [mapSet, mapLookup, h, ih]

theorem mapLookup_mapSet_ne {β : Type} (m : List (String × β)) (k k2 : String) (v : β)
    (h : k2 ≠ k) : mapLookup (mapSet m k v) k2 = mapLookup m k2 := by
  induction m with
  | nil => simp [mapSet, mapLookup, Ne.symm h]
  | cons p rest ih =>
    obtain ⟨k1, v1⟩ := p
    by_cases h1 : k1 = k
    · subst h1
      simp [mapSet, mapLookup, Ne.symm h]
    · by_cases h2 : k1 = k2 <;> simp [mapSet, mapLookup, h, h1, h2, ih]

theorem mapKeys_cons {β : Type} (p : String × β) (m : List (String × β)) :
    mapKeys (p :: m) = p.1 :: mapKeys m := rfl

theorem mapValues_cons {β : Type} (p : String × β) (m : List (String × β)) :
    mapValues (p :: m) = p.2 :: mapValues m := rfl

theorem mapKeys_mapSet {β : Type} (m : List (String × β)) (k : String) (v : β) :
    mapKeys (mapSet m k v) =
      if k ∈ mapKeys m then mapKeys m else mapKeys m ++ [k] := by
  induction m with
  | nil => simp [mapSet, mapKeys]
  | cons p rest ih =>
    obtain ⟨k1, v1⟩ := p
    by_cases h : k1 = k
    · subst h
      simp [mapSet, mapKeys_cons]
    · have hne : ¬(k = k1) := fun hh => h hh.symm
      by_cases h2 : k ∈ mapKeys rest <;>
        simp [mapSet, h, mapKeys_cons, List.mem_cons, hne, h2, ih]

theorem mapKeys_mapSet_nodup {β : Type} (m : List (String × β)) (k : String) (v : β)
    (h : (mapKeys m).Nodup) : (mapKeys (mapSet m k v)).Nodup := by
  rw [mapKeys_mapSet]
  by_cases h2 : k ∈ mapKeys m
  · simpa [h2] using h
  · simp only [h2, if_false]
    simpa [List.nodup_append, h2] using h

theorem map_if_eq_mapValues {β : Type} (m : List (String × β)) (k : String) (v : β)
    (h : k ∉ mapKeys m) :
    m.map (fun p => if p.1 = k then v else p.2) = mapValues m := by
  induction m with
  | nil => simp [mapValues]
  | cons p rest ih =>
    obtain ⟨k1, v1⟩ := p
    have h1 : ¬(k1 = k) := by
      intro hh
      exact h (by simp [mapKeys_cons, hh])
    have h2 : k ∉ mapKeys rest := by
      intro hh
      exact h (by simp [mapKeys_cons, hh])
    simp [mapValues_cons, h1, ih h2]

theorem mapValues_mapSet_mem {β : Type} (m : List (String × β)) (k : String) (v : β)
    (hn : (mapKeys m).Nodup) (h : k ∈ mapKeys m) :
    mapValues (mapSet m k v) = m.map (fun p => if p.1 = k then v else p.2) := by
  induction m with
  | nil => simp [mapKeys] at h
  | cons p rest ih =>
    obtain ⟨k1, v1⟩ := p
    rw [mapKeys_cons, List.nodup_cons] at hn
    by_cases h1 : k1 = k
    · subst h1
      simp [mapSet, mapValues_cons, map_if_eq_mapValues rest k1 v hn.1]
    · have h2 : k ∈ mapKeys rest := by
        rcases (by simpa [mapKeys_cons] using h : k = k1 ∨ k ∈ mapKeys rest) with h3 | h3
        · exact absurd h3.symm h1
        · exact h3
      simp [mapSet, mapValues_cons, h1, ih hn.2 h2]

theorem mapValues_mapSet_not_mem {β : Type} (m : List (String × β)) (k : String) (v : β)
    (h : k ∉ mapKeys m) :
    mapValues (mapSet m k v) = mapValues m ++ [v] := by
  induction m with
  | nil => simp [mapSet, mapValues]
  | cons p rest ih =>
    obtain ⟨k1, v1⟩ := p
    have h1 : ¬(k1 = k) := by
      intro hh
      exact h (by simp [mapKeys_cons, hh])
    have h2 : k ∉ mapKeys rest := by
      intro hh
      exact h (by simp [mapKeys_cons, hh])
    simp [mapSet, mapValues_cons, h1, ih h2]

/-! ## Transport claims -/

/-- C9: for every transport whose status is already connected or
connecting, calling connect() returns immediately as a no-op: the whole
state is unchanged, so no status listener is notified and no new socket
is created. -/
theorem connectCall_noop_when_active (st : TransportState)
    (h : st.status = .connected ∨ st.status = .connecting) :
    connectCall st = st := by
  simp [connectCall, h]

/-- Witness for C9 at a concrete connected state. -/
theorem connectCall_noop_when_active_witness :
    connectCall
        { status := .connected, reconnectAttempts := 0, socketGen := 1,
          heartbeatOn := true, pendingReconnectDelay := none, statusEvents := [] } =
      { status := .connected, reconnectAttempts := 0, socketGen := 1,
        heartbeatOn := true, pendingReconnectDelay := none, statusEvents := [] } :=
  connectCall_noop_when_active _ (Or.inl rfl)

/-- C1 counterexample: with the retry budget exhausted (status error,
counter at the default maxAttempts of 10), a manual connect() call does
not reset the reconnect-attempt counter — it stays 10, not 0. -/
theorem connectCall_does_not_reset_counter :
    (connectCall exhaustedState).reconnectAttempts = 10 ∧
    ¬(connectCall exhaustedState).reconnectAttempts = 0 := by
  refine ⟨rfl, ?_⟩
  intro h
  exact absurd h (by decide)

/-- C1 amended: a manual connect() call leaves the reconnect-attempt
counter unchanged; the counter is reset to 0 by the socket's open
handler once the manually initiated connection succeeds, so the next
retry cycle starts from attempt 0 only after a successful open. -/
theorem counter_reset_by_open_after_manual_connect (st : TransportState)
    (h : st.status = .error) :
    (connectCall st).reconnectAttempts = st.reconnectAttempts ∧
    (handleOpen (connectCall st)).reconnectAttempts = 0 := by
  constructor
  · simp [connectCall, setStatus, h]
  · simp only [handleOpen, setStatus]
    split <;> rfl

/-- Witness for the amended C1 at the exhausted state. -/
theorem counter_reset_by_open_after_manual_connect_witness :
    (connectCall exhaustedState).reconnectAttempts = exhaustedState.reconnectAttempts ∧
    (handleOpen (connectCall exhaustedState)).reconnectAttempts = 0 :=
  counter_reset_by_open_after_manual_connect exhaustedState rfl

/-- C2: the armed reconnect delay is min(baseDelay * 2 ^ attempts,
maxDelay) with the attempt count as it stands before the increment; the
unclean-close path within the retry budget arms exactly that delay; the
timer callback increments the counter first and only then calls
connect(); and the constructor defaults are baseDelay 1000, maxDelay
30000, maxAttempts 10. -/
theorem reconnect_backoff_spec (cfg : ResolvedTransportConfig) (st : TransportState)
    (u : String) :
    (scheduleReconnect cfg st).pendingReconnectDelay =
      some (min (cfg.baseDelay * 2 ^ st.reconnectAttempts) cfg.maxDelay) ∧
    (cfg.enabled = true → st.reconnectAttempts < cfg.maxAttempts →
      (handleDisconnect cfg st).pendingReconnectDelay =
        some (min (cfg.baseDelay * 2 ^ st.reconnectAttempts) cfg.maxDelay)) ∧
    reconnectTimerFire st =
      connectCall
        { st with
          pendingReconnectDelay := none
          reconnectAttempts := st.reconnectAttempts + 1 } ∧
    (resolveConfig
        { url := u, heartbeatInterval := none, authToken := none,
          reconnect := none }).baseDelay = 1000 ∧
    (resolveConfig
        { url := u, heartbeatInterval := none, authToken := none,
          reconnect := none }).maxDelay = 30000 ∧
    (resolveConfig
        { url := u, heartbeatInterval := none, authToken := none,
          reconnect := none }).maxAttempts = 10 := by
  refine ⟨rfl, ?_, rfl, rfl, rfl, rfl⟩
  intro hen hlt
  have hnotle : ¬(cfg.maxAttempts ≤ st.reconnectAttempts) := by omega
  simp [handleDisconnect, hen, hnotle, scheduleReconnect, setStatus]
  split <;> rfl

/-- Witness for C2 at a concrete configuration and state. -/
theorem reconnect_backoff_spec_witness :
    (scheduleReconnect (resolveConfig
          { url := "ws://x", heartbeatInterval := none, authToken := none,
            reconnect := none })
        { status := .reconnecting, reconnectAttempts := 3, socketGen := 1,
          heartbeatOn := false, pendingReconnectDelay := none,
          statusEvents := [] }).pendingReconnectDelay = some 8000 := by
  have h := (reconnect_backoff_spec
    (resolveConfig
      { url := "ws://x", heartbeatInterval := none, authToken := none,
        reconnect := none })
    { status := .reconnecting, reconnectAttempts := 3, socketGen := 1,
      heartbeatOn := false, pendingReconnectDelay := none, statusEvents := [] }
    "ws://x").1
  simpa [resolveConfig] using h

/-! ## Streaming state machine claim -/

theorem setStreamingState_eq (st newState : StreamingState) :
    setStreamingState st newState =
      if st.isStreaming != newState.isStreaming || st.sessionId != newState.sessionId ||
          !(contentBlocksEqual st.partialContent newState.partialContent)
      then newState else st := rfl

/-- C4: after onPartialContent for session s1, an onComplete for a
different session s2 leaves the state unchanged (still streaming s1); a
subsequent onComplete for s1 resets to the initial state; and onComplete
always clears to the initial state when no session is tracked. -/
theorem onComplete_matching_session_only (st : StreamingState) (s1 s2 : String)
    (blocks : List ContentBlock) (hne : s1 ≠ s2) :
    onComplete s2 (onPartialContent s1 blocks st) = onPartialContent s1 blocks st ∧
    onComplete s1 (onComplete s2 (onPartialContent s1 blocks st)) = INITIAL_STATE ∧
    (∀ (st2 : StreamingState) (sid : String), st2.sessionId = none →
      onComplete sid st2 = INITIAL_STATE) := by
  have h1 : (onPartialContent s1 blocks st).isStreaming = true ∧
      (onPartialContent s1 blocks st).sessionId = some s1 := by
    unfold onPartialContent
    rw [setStreamingState_eq]
    by_cases h : (st.isStreaming !=
        ({ isStreaming := true, partialContent := some blocks,
           sessionId := some s1 } : StreamingState).isStreaming ||
        st.sessionId != some s1 ||
        !(contentBlocksEqual st.partialContent (some blocks))) = true
    · simp only [h, if_pos]
      simp
    · rw [if_neg h]
      have h3 := eq_false_of_ne_true h
      simp only [Bool.or_eq_false_iff, bne_eq_false_iff_eq, Bool.not_eq_false] at h3
      exact ⟨h3.1.1, h3.1.2⟩
  have hclear : ∀ st2 : StreamingState, st2.isStreaming = true →
      setStreamingState st2 INITIAL_STATE = INITIAL_STATE := by
    intro st2 hs
    rw [setStreamingState_eq]
    have : (st2.isStreaming != INITIAL_STATE.isStreaming) = true := by
      simp [hs, INITIAL_STATE]
    simp [this]
  have hstay : onComplete s2 (onPartialContent s1 blocks st) =
      onPartialContent s1 blocks st := by
    unfold onComplete
    rw [h1.2]
    have hcond : ¬(some s1 = some s2 ∨ (some s1 : Option String) = none) := by
      simp [hne]
    rw [if_neg hcond]
  refine ⟨hstay, ?_, ?_⟩
  · rw [hstay]
    unfold onComplete
    rw [h1.2]
    simp only [or_true, true_or, if_pos]
    exact hclear _ h1.1
  · intro st2 sid h
    obtain ⟨b, pc, sid2⟩ := st2
    simp only at h
    subst h
    unfold onComplete
    simp only [or_true, if_pos]
    rw [setStreamingState_eq]
    by_cases h2 : ((b != INITIAL_STATE.isStreaming) ||
        ((none : Option String) != INITIAL_STATE.sessionId) ||
        !(contentBlocksEqual pc INITIAL_STATE.partialContent)) = true
    · simp only [h2, if_pos]
    · rw [if_neg h2]
      have h3 := eq_false_of_ne_true h2
      simp only [Bool.or_eq_false_iff, bne_eq_false_iff_eq, Bool.not_eq_false] at h3
      have hb : b = false := by simpa [INITIAL_STATE] using h3.1.1
      have hpc : pc = none := by
        rcases pc with _ | l
        · rfl
        · exact absurd h3.2 (by simp [INITIAL_STATE, contentBlocksEqual])
      simp [hb, hpc, INITIAL_STATE]

/-- Witness for C4 with sessions s1 and s2 on the initial state. -/
theorem onComplete_matching_session_only_witness :
    onComplete "s2" (onPartialContent "s1" [] INITIAL_STATE) =
      onPartialContent "s1" [] INITIAL_STATE ∧
    onComplete "s1" (onComplete "s2" (onPartialContent "s1" [] INITIAL_STATE)) =
      INITIAL_STATE := by
  have h := onComplete_matching_session_only INITIAL_STATE "s1" "s2" [] (by decide)
  exact ⟨h.1, h.2.1⟩


/-! ## Message store claims -/

theorem foldl_mapSet_lookup (msgs : List StoreMessage) (st : MessageMap) (i : String) :
    mapLookup (msgs.foldl (fun s m => mapSet s m.id m) st) i =
      Option.or (msgs.reverse.find? (fun x => x.id == i)) (mapLookup st i) := by
  induction msgs generalizing st with
  | nil => simp [Option.or]
  | cons m rest ih =>
    rw [List.foldl_cons, ih, List.reverse_cons, List.find?_append]
    cases hf : rest.reverse.find? (fun x => x.id == i) with
    | some x => simp [Option.or]
    | none =>
      simp only [Option.or]
      by_cases hid : m.id = i
      · subst hid
        rw [mapLookup_mapSet_self]
        simp [List.find?]
      · rw [mapLookup_mapSet_ne st m.id i m (fun hh => hid hh.symm)]
        have : (m.id == i) = false := by simp [hid]
        simp [List.find?, this]

theorem foldl_mapSet_nodup (msgs : List StoreMessage) (st : MessageMap)
    (h : (mapKeys st).Nodup) :
    (mapKeys (msgs.foldl (fun s m => mapSet s m.id m) st)).Nodup := by
  induction msgs generalizing st with
  | nil => exact h
  | cons m rest ih => exact ih _ (mapKeys_mapSet_nodup st m.id m h)

/-- C5: after addMessages, the store holds exactly one entry per
distinct id (no duplicate keys), each id added in the batch maps to the
last message supplied with that id, ids outside the batch are untouched,
and the call performs exactly one listener broadcast, carrying the full
snapshot. -/
theorem addMessages_spec (msgs : List StoreMessage) (st : MessageMap)
    (h : (mapKeys st).Nodup) :
    (mapKeys (addMessages msgs st).1).Nodup ∧
    (∀ i, i ∈ msgs.map (fun m => m.id) →
      ∃ m, (msgs.filter (fun x => x.id == i)).getLast? = some m ∧
        mapLookup (addMessages msgs st).1 i = some m) ∧
    (∀ i, i ∉ msgs.map (fun m => m.id) →
      mapLookup (addMessages msgs st).1 i = mapLookup st i) ∧
    (addMessages msgs st).2 = [getMessages (addMessages msgs st).1] := by
  refine ⟨foldl_mapSet_nodup msgs st h, ?_, ?_, rfl⟩
  · intro i hi
    have hex : ∃ x, x ∈ msgs.reverse ∧ (x.id == i) = true := by
      obtain ⟨m, hm, hid⟩ := List.mem_map.mp hi
      exact ⟨m, List.mem_reverse.mpr hm, by simp [hid]⟩
    have hsome : (msgs.reverse.find? (fun x => x.id == i)).isSome :=
      List.find?_isSome.mpr hex
    obtain ⟨m, hm⟩ := Option.isSome_iff_exists.mp hsome
    refine ⟨m, ?_, ?_⟩
    · rw [List.getLast?_eq_head?_reverse, ← List.filter_reverse, List.filter_head?]
      exact hm
    · have : (addMessages msgs st).1 = msgs.foldl (fun s m => mapSet s m.id m) st := rfl
      rw [this, foldl_mapSet_lookup, hm]
      rfl
  · intro i hi
    have hnone : msgs.reverse.find? (fun x => x.id == i) = none := by
      rw [List.find?_eq_none]
      intro x hx hbeq
      exact hi (List.mem_map.mpr ⟨x, List.mem_reverse.mp hx, by simpa using hbeq⟩)
    have : (addMessages msgs st).1 = msgs.foldl (fun s m => mapSet s m.id m) st := rfl
    rw [this, foldl_mapSet_lookup, hnone]
    rfl

/-- First example message for the store witnesses (id a). -/
def msgA : StoreMessage :=
  { id := "a", sender := "u", content := "first a", createdAt := "t1", sequence := none }

/-- Second example message (id b). -/
def msgB : StoreMessage :=
  { id := "b", sender := "u", content := "b", createdAt := "t2", sequence := none }

/-- A later message reusing id a (overwrites msgA). -/
def msgA2 : StoreMessage :=
  { id := "a", sender := "u", content := "second a", createdAt := "t3", sequence := none }

/-- Witness for C5: a batch with a duplicated id keeps the last supplied
message for it and broadcasts once. -/
theorem addMessages_spec_witness :
    mapLookup (addMessages [msgA, msgB, msgA2] []).1 "a" = some msgA2 ∧
    (addMessages [msgA, msgB, msgA2] []).2 =
      [getMessages (addMessages [msgA, msgB, msgA2] []).1] := by
  have h := addMessages_spec [msgA, msgB, msgA2] [] (by decide)
  refine ⟨?_, h.2.2.2⟩
  obtain ⟨m, hlast, hlook⟩ := h.2.1 "a" (by decide)
  have hm : m = msgA2 := by
    have h2 : ([msgA, msgB, msgA2].filter (fun x => x.id == "a")).getLast? =
        some msgA2 := by decide
    rw [h2] at hlast
    exact (Option.some.inj hlast).symm
  exact hm ▸ hlook

/-- C6: getMessages returns messages in insertion order of first-seen
id — adding a message whose id already exists overwrites the stored
fields in place, leaving the key order unchanged, while a fresh id is
appended at the end. -/
theorem getMessages_insertion_order (st : MessageMap) (m : StoreMessage)
    (h : (mapKeys st).Nodup) :
    (m.id ∈ mapKeys st →
      getMessages (addMessage m st).1 =
        st.map (fun p => if p.1 = m.id then m else p.2) ∧
      mapKeys (addMessage m st).1 = mapKeys st) ∧
    (m.id ∉ mapKeys st →
      getMessages (addMessage m st).1 = getMessages st ++ [m]) := by
  constructor
  · intro hmem
    constructor
    · exact mapValues_mapSet_mem st m.id m h hmem
    · rw [show (addMessage m st).1 = mapSet st m.id m from rfl, mapKeys_mapSet]
      simp [hmem]
  · intro hmem
    exact mapValues_mapSet_not_mem st m.id m hmem

/-- Witness for C6: overwriting id a in a two-entry store keeps its
first position. -/
theorem getMessages_insertion_order_witness :
    getMessages (addMessage msgA2 [("a", msgA), ("b", msgB)]).1 =
      [("a", msgA), ("b", msgB)].map
        (fun p => if p.1 = msgA2.id then msgA2 else p.2) ∧
    mapKeys (addMessage msgA2 [("a", msgA), ("b", msgB)]).1 =
      mapKeys [("a", msgA), ("b", msgB)] :=
  (getMessages_insertion_order [("a", msgA), ("b", msgB)] msgA2 (by decide)).1
    (by decide)

/-! ## Transport subscription fan-out claim -/

/-- C8: with the socket open, the first callback subscribed for a
session sends exactly one subscribe control frame, a second callback for
the same session sends nothing, removing one of the two callbacks sends
nothing, and removing the last callback sends exactly one unsubscribe
control frame. -/
theorem subscribe_control_frames (st : SubscriberState) (sid : String) (cb1 cb2 : Nat)
    (habs : mapLookup st.sessionSubscribers sid = none) (hne : cb1 ≠ cb2)
    (hopen : st.wsOpen = true) :
    (subscribeOp sid cb1 st).2 = [ControlFrame.subscribeSession sid] ∧
    (subscribeOp sid cb2 (subscribeOp sid cb1 st).1).2 = [] ∧
    (unsubscribeOp sid cb1 (subscribeOp sid cb2 (subscribeOp sid cb1 st).1).1).2 = [] ∧
    (unsubscribeOp sid cb2
        (unsubscribeOp sid cb1
          (subscribeOp sid cb2 (subscribeOp sid cb1 st).1).1).1).2 =
      [ControlFrame.unsubscribeSession sid] := by
  have e1 : subscribeOp sid cb1 st =
      ({ st with
          sessionSubscribers := mapSet (mapSet st.sessionSubscribers sid []) sid [cb1] },
       [ControlFrame.subscribeSession sid]) := by
    simp [subscribeOp, habs, sendRaw, hopen, setAdd]
  have hl1 : mapLookup (mapSet (mapSet st.sessionSubscribers sid []) sid [cb1]) sid
      = some [cb1] := mapLookup_mapSet_self _ _ _
  have e2 : subscribeOp sid cb2 (subscribeOp sid cb1 st).1 =
      ({ st with
          sessionSubscribers := mapSet (mapSet (mapSet st.sessionSubscribers sid []) sid [cb1]) sid [cb1, cb2] },
       []) := by
    rw [e1]
    simp [subscribeOp, hl1, setAdd, Ne.symm hne]
  have hl2 : mapLookup (mapSet (mapSet (mapSet st.sessionSubscribers sid []) sid [cb1])
      sid [cb1, cb2]) sid = some [cb1, cb2] := mapLookup_mapSet_self _ _ _
  have e3 : unsubscribeOp sid cb1 (subscribeOp sid cb2 (subscribeOp sid cb1 st).1).1 =
      ({ st with
          sessionSubscribers := mapSet (mapSet (mapSet (mapSet st.sessionSubscribers sid []) sid [cb1]) sid [cb1, cb2]) sid [cb2] },
       []) := by
    rw [e2]
    simp [unsubscribeOp, hl2, List.erase_cons_head]
  have hl3 : mapLookup (mapSet (mapSet (mapSet (mapSet st.sessionSubscribers sid [])
      sid [cb1]) sid [cb1, cb2]) sid [cb2]) sid = some [cb2] :=
    mapLookup_mapSet_self _ _ _
  have e4 : (unsubscribeOp sid cb2
      (unsubscribeOp sid cb1
        (subscribeOp sid cb2 (subscribeOp sid cb1 st).1).1).1).2 =
      [ControlFrame.unsubscribeSession sid] := by
    rw [e3]
    simp [unsubscribeOp, hl3, sendRaw, hopen]
  exact ⟨by rw [e1], by rw [e2], by rw [e3], e4⟩

/-- Witness for C8 with a fresh transport, session s and callbacks 0, 1. -/
theorem subscribe_control_frames_witness :
    (subscribeOp "s" 0 { sessionSubscribers := [], wsOpen := true }).2 =
      [ControlFrame.subscribeSession "s"] ∧
    (subscribeOp "s" 1
        (subscribeOp "s" 0 { sessionSubscribers := [], wsOpen := true }).1).2 = [] ∧
    (unsubscribeOp "s" 0
        (subscribeOp "s" 1
          (subscribeOp "s" 0 { sessionSubscribers := [], wsOpen := true }).1).1).2 = [] ∧
    (unsubscribeOp "s" 1
        (unsubscribeOp "s" 0
          (subscribeOp "s" 1
            (subscribeOp "s" 0
              { sessionSubscribers := [], wsOpen := true }).1).1).1).2 =
      [ControlFrame.unsubscribeSession "s"] :=
  subscribe_control_frames { sessionSubscribers := [], wsOpen := true } "s" 0 1
    rfl (by decide) rfl

/-! ## Normalizer claim -/

/-- C3: normalize is total (never raises): it returns null exactly for
input that is not an object (arrays and plain objects are the objects),
and for object input it returns the event whose type defaults to
"message" when absent, whose sessionId falls back sessionId →
session_id → empty string, whose payload falls back payload → data →
the whole raw object, and whose timestamp falls back timestamp →
createdAt → the current time. -/
theorem normalize_fallbacks (raw : JValue) (now : String) :
    (isObjLike raw = false → DefaultNormalizer.normalize now raw = none) ∧
    (isObjLike raw = true →
      DefaultNormalizer.normalize now raw =
        some (DefaultNormalizer.normalizeBody now raw) ∧
      (jsProp raw "type" = .undefined →
        (DefaultNormalizer.normalizeBody now raw).type = "message") ∧
      (jsProp raw "sessionId" = .undefined → jsProp raw "session_id" = .undefined →
        (DefaultNormalizer.normalizeBody now raw).sessionId = "") ∧
      (∀ s, jsProp raw "sessionId" = .str s → s ≠ "" →
        (DefaultNormalizer.normalizeBody now raw).sessionId = s) ∧
      (jsProp raw "sessionId" = .undefined → ∀ s, jsProp raw "session_id" = .str s →
        s ≠ "" → (DefaultNormalizer.normalizeBody now raw).sessionId = s) ∧
      (jsNullish (jsProp raw "payload") = false →
        (DefaultNormalizer.normalizeBody now raw).payload = jsProp raw "payload") ∧
      (jsNullish (jsProp raw "payload") = true →
        jsNullish (jsProp raw "data") = false →
        (DefaultNormalizer.normalizeBody now raw).payload = jsProp raw "data") ∧
      (jsNullish (jsProp raw "payload") = true →
        jsNullish (jsProp raw "data") = true →
        (DefaultNormalizer.normalizeBody now raw).payload = raw) ∧
      (∀ s, jsProp raw "timestamp" = .str s → s ≠ "" →
        (DefaultNormalizer.normalizeBody now raw).timestamp = s) ∧
      (jsProp raw "timestamp" = .undefined → ∀ s, jsProp raw "createdAt" = .str s →
        s ≠ "" → (DefaultNormalizer.normalizeBody now raw).timestamp = s) ∧
      (jsProp raw "timestamp" = .undefined → jsProp raw "createdAt" = .undefined →
        (DefaultNormalizer.normalizeBody now raw).timestamp = now)) := by
  constructor
  · intro h
    cases raw <;> simp_all [DefaultNormalizer.normalize, isObjLike, jsTruthy,
      jsTypeofObject]
  · intro h
    have hguard : (!(jsTruthy raw) || !(jsTypeofObject raw)) = false := by
      cases raw <;> simp_all [isObjLike, jsTruthy, jsTypeofObject]
    refine ⟨by simp [DefaultNormalizer.normalize, hguard], ?_, ?_, ?_, ?_, ?_, ?_, ?_, ?_, ?_, ?_⟩
    · intro h1
      simp [DefaultNormalizer.normalizeBody, h1, jsOrElse, jsTruthy, jsToString]
    · intro h1 h2
      simp [DefaultNormalizer.normalizeBody, h1, h2, jsOrElse, jsTruthy, jsToString]
    · intro s h1 hs
      simp [DefaultNormalizer.normalizeBody, h1, jsOrElse, jsTruthy, jsToString, hs]
    · intro h1 s h2 hs
      simp [DefaultNormalizer.normalizeBody, h1, h2, jsOrElse, jsTruthy, jsToString, hs]
    · intro h1
      simp [DefaultNormalizer.normalizeBody, jsCoalesce, h1]
    · intro h1 h2
      simp [DefaultNormalizer.normalizeBody, jsCoalesce, h1, h2]
    · intro h1 h2
      simp [DefaultNormalizer.normalizeBody, jsCoalesce, h1, h2]
    · intro s h1 hs
      simp [DefaultNormalizer.normalizeBody, h1, jsOrElse, jsTruthy, jsToString, hs]
    · intro h1 s h2 hs
      simp [DefaultNormalizer.normalizeBody, h1, h2, jsOrElse, jsTruthy, jsToString, hs]
    · intro h1 h2
      simp [DefaultNormalizer.normalizeBody, h1, h2, jsOrElse, jsTruthy, jsToString]

/-- Witness for C3: a plain object with no recognized fields takes every
default, and a number input normalizes to null. -/
theorem normalize_fallbacks_witness :
    DefaultNormalizer.normalize "NOW" (objOf [("foo", .num 1)]) =
      some (DefaultNormalizer.normalizeBody "NOW" (objOf [("foo", .num 1)])) ∧
    (DefaultNormalizer.normalizeBody "NOW" (objOf [("foo", .num 1)])).type = "message" ∧
    (DefaultNormalizer.normalizeBody "NOW" (objOf [("foo", .num 1)])).sessionId = "" ∧
    (DefaultNormalizer.normalizeBody "NOW" (objOf [("foo", .num 1)])).payload =
      objOf [("foo", .num 1)] ∧
    (DefaultNormalizer.normalizeBody "NOW" (objOf [("foo", .num 1)])).timestamp = "NOW" ∧
    (DefaultNormalizer.normalizeBody "NOW" (objOf [("createdAt", .str "T1")])).timestamp =
      "T1" ∧
    DefaultNormalizer.normalize "NOW" (.num 5) = none := by
  have h := (normalize_fallbacks (objOf [("foo", .num 1)]) "NOW").2 rfl
  have h2 := (normalize_fallbacks (objOf [("createdAt", .str "T1")]) "NOW").2 rfl
  exact ⟨h.1, h.2.1 rfl, h.2.2.1 rfl rfl, h.2.2.2.2.2.2.2.1 rfl rfl,
    h.2.2.2.2.2.2.2.2.2.2 rfl rfl,
    h2.2.2.2.2.2.2.2.2.2.1 rfl "T1" rfl (by decide),
    (normalize_fallbacks (.num 5) "NOW").1 rfl⟩

/-! ## Timeline sorting claim -/

/-- C7: build sorts with the supplied rules in ascending priority order
(the rule list is re-sorted by priority and supplying rules in either
order yields the same comparator); within the comparator the first rule
producing a nonzero comparison decides (equal or both-missing values
fall through to the next rule); numeric fields compare numerically and
string fields with the locale comparison; a missing or null value sorts
after any present value regardless of the rule's direction; and on the
spec's example (one ascending sequence rule, sequences 3, 1, 2) build
returns the items ordered 1, 2, 3. -/
theorem timeline_sort_spec (lc : LocaleCompare) :
    (∀ rules : List SortingRule,
      List.Pairwise (fun r1 r2 => r1.priority ≤ r2.priority)
        (sortRulesByPriority rules) ∧
      List.Perm (sortRulesByPriority rules) rules) ∧
    (∀ (r1 r2 : SortingRule), r1.priority < r2.priority → ∀ (a b : JValue),
      createCompareFunction lc [r2, r1] a b = createCompareFunction lc [r1, r2] a b) ∧
    (∀ (r : SortingRule) (rest : List SortingRule) (a b : JValue) (x y : Int),
      getFieldValue a r.field = .num x → getFieldValue b r.field = .num y → x ≠ y →
      compareLoop lc (r :: rest) a b = applyDirection r.direction (x - y)) ∧
    (∀ (r : SortingRule) (rest : List SortingRule) (a b : JValue) (x : Int),
      getFieldValue a r.field = .num x → getFieldValue b r.field = .num x →
      compareLoop lc (r :: rest) a b = compareLoop lc rest a b) ∧
    (∀ (r : SortingRule) (rest : List SortingRule) (a b : JValue) (s t : String),
      getFieldValue a r.field = .str s → getFieldValue b r.field = .str t →
      lc s t ≠ 0 →
      compareLoop lc (r :: rest) a b = applyDirection r.direction (lc s t)) ∧
    (∀ (r : SortingRule) (rest : List SortingRule) (a b : JValue),
      jsNullish (getFieldValue a r.field) = true →
      jsNullish (getFieldValue b r.field) = false →
      compareLoop lc (r :: rest) a b = 1) ∧
    (∀ (r : SortingRule) (rest : List SortingRule) (a b : JValue),
      jsNullish (getFieldValue a r.field) = false →
      jsNullish (getFieldValue b r.field) = true →
      compareLoop lc (r :: rest) a b = -1) ∧
    (∀ (r : SortingRule) (rest : List SortingRule) (a b : JValue),
      jsNullish (getFieldValue a r.field) = true →
      jsNullish (getFieldValue b r.field) = true →
      compareLoop lc (r :: rest) a b = compareLoop lc rest a b) ∧
    build lc exampleSortParams =
      [objOf [("id", .str "m2"), ("sequence", .num 1), ("itemType", .str "message")],
       objOf [("id", .str "m3"), ("sequence", .num 2), ("itemType", .str "message")],
       objOf [("id", .str "m1"), ("sequence", .num 3), ("itemType", .str "message")]] := by
  refine ⟨?_, ?_, ?_, ?_, ?_, ?_, ?_, ?_, rfl⟩
  · intro rules
    constructor
    · have hs : List.Sorted (fun a b : SortingRule => a.priority - b.priority ≤ 0)
          (sortRulesByPriority rules) := by
        haveI : IsTotal SortingRule (fun a b : SortingRule => a.priority - b.priority ≤ 0) :=
          ⟨fun a b => by omega⟩
        haveI : IsTrans SortingRule (fun a b : SortingRule => a.priority - b.priority ≤ 0) :=
          ⟨fun a b c h1 h2 => by omega⟩
        exact List.sorted_insertionSort _ rules
      exact hs.imp (fun h => by omega)
    · exact List.perm_insertionSort _ rules
  · intro r1 r2 hlt a b
    have h1 : ¬(r2.priority - r1.priority ≤ 0) := by omega
    have h2 : r1.priority - r2.priority ≤ 0 := by omega
    unfold createCompareFunction sortRulesByPriority jsSortBy
    simp [List.insertionSort, List.orderedInsert, h1, h2]
  · intro r rest a b x y hax hby hxy
    have hsub : (x - y != 0) = true := by
      simp [sub_ne_zero.mpr hxy]
    simp [compareLoop, hax, hby, jsNullish, hsub]
  · intro r rest a b x hax hby
    simp [compareLoop, hax, hby, jsNullish]
  · intro r rest a b s t hax hby hne0
    simp [compareLoop, hax, hby, jsNullish, hne0]
  · intro r rest a b ha hb
    simp [compareLoop, ha, hb]
  · intro r rest a b ha hb
    simp [compareLoop, ha, hb]
  · intro r rest a b ha hb
    simp [compareLoop, ha, hb]

/-- Witness for C7: a missing sequence sorts after a present one even
under a descending rule, and the example build call evaluates as the
claim states. -/
theorem timeline_sort_spec_witness :
    compareLoop (fun _ _ => 0)
      [{ field := "sequence", direction := .desc, priority := 1 }]
      (objOf [("id", .str "x")]) exampleMsgSeq1 = 1 ∧
    build (fun _ _ => 0) exampleSortParams =
      [objOf [("id", .str "m2"), ("sequence", .num 1), ("itemType", .str "message")],
       objOf [("id", .str "m3"), ("sequence", .num 2), ("itemType", .str "message")],
       objOf [("id", .str "m1"), ("sequence", .num 3), ("itemType", .str "message")]] := by
  have h := timeline_sort_spec (fun _ _ => 0)
  exact ⟨h.2.2.2.2.2.1
    { field := "sequence", direction := .desc, priority := 1 } []
    (objOf [("id", .str "x")]) exampleMsgSeq1 rfl rfl,
    h.2.2.2.2.2.2.2.2⟩

/-! ## Deduplication claim -/

theorem dedup_foldl_single_key (rule : DeduplicationRule) (l : List JValue) (v : JValue)
    (h : ∀ it ∈ l, getFieldValue it rule.field = .undefined) :
    l.foldl (dedupStep [rule]) [("undefined", v)] =
      [("undefined", if rule.strategy = .first then v else l.getLastD v)] := by
  induction l generalizing v with
  | nil =>
    cases hs : rule.strategy <;> simp [hs, List.getLastD]
  | cons y ys ih =>
    have hy : dedupKey rule y = "undefined" := by
      simp [dedupKey, h y (List.mem_cons_self y ys), jsToString]
    have hys : ∀ it ∈ ys, getFieldValue it rule.field = .undefined :=
      fun it hit => h it (List.mem_cons_of_mem y hit)
    rw [List.foldl_cons]
    cases hs : rule.strategy with
    | first =>
      have hstep : dedupStep [rule] [("undefined", v)] y = [("undefined", v)] := by
        simp [dedupStep, hs, hy, mapLookup]
      rw [hstep, ih v hys, hs]
      simp
    | last =>
      have hstep : dedupStep [rule] [("undefined", v)] y = [("undefined", y)] := by
        simp [dedupStep, hs, hy, mapSet]
      rw [hstep, ih y hys, hs, if_neg (by decide), List.getLastD_cons,
        if_neg (by decide)]

/-- C10: a deduplication rule whose field resolves to undefined on every
input item gives every item the stringified key "undefined", so at most
one item survives: the first one under the first strategy, the last one
under the last strategy. -/
theorem dedup_absent_field_collapses (rule : DeduplicationRule) (x : JValue)
    (xs : List JValue)
    (h : ∀ it ∈ x :: xs, getFieldValue it rule.field = .undefined) :
    (∀ it ∈ x :: xs, dedupKey rule it = "undefined") ∧
    deduplicateItems (x :: xs) [rule] =
      [if rule.strategy = .first then x else (x :: xs).getLast (List.cons_ne_nil x xs)] := by
  constructor
  · intro it hit
    simp [dedupKey, h it hit, jsToString]
  · have hx : dedupKey rule x = "undefined" := by
      simp [dedupKey, h x (List.mem_cons_self x xs), jsToString]
    have hxs : ∀ it ∈ xs, getFieldValue it rule.field = .undefined :=
      fun it hit => h it (List.mem_cons_of_mem x hit)
    have hstep : dedupStep [rule] [] x = [("undefined", x)] := by
      cases hs : rule.strategy <;> simp [dedupStep, hs, hx, mapLookup, mapSet]
    unfold deduplicateItems
    rw [List.foldl_cons, hstep, dedup_foldl_single_key rule xs x hxs]
    have hlast : xs.getLastD x = (x :: xs).getLast (List.cons_ne_nil x xs) := by
      rw [List.getLast_eq_getLastD]
    cases hs : rule.strategy <;> simp [hs, mapValues, ← hlast]

/-- Witness for C10: deduplicating two items by an absent field with the
last strategy keeps only the second item. -/
theorem dedup_absent_field_collapses_witness :
    deduplicateItems [exampleMsgSeq3, exampleMsgSeq1]
      [{ field := "zzz", strategy := .last }] = [exampleMsgSeq1] := by
  have h := (dedup_absent_field_collapses { field := "zzz", strategy := .last }
    exampleMsgSeq3 [exampleMsgSeq1] ?_).2
  · simpa using h
  · intro it hit
    cases hit with
    | head => rfl
    | tail _ h2 =>
      cases h2 with
      | head => rfl
      | tail _ h3 => cases h3
